import Mathlib

/-!
Verification of the Butterfly-Backup orchestration engine (bb.py / utility.py)
against its natural-language specification.

The Python source is shallowly embedded: the backup catalog (an INI-style
file handled through configparser) becomes an association list of sections,
one record per backup attempt; filesystem and subprocess effects become
explicit parameters (path-existence and rmtree-success oracles); wall-clock
dates become natural numbers (the source stores timestamps as strings in the
fixed format "%Y-%m-%d %H:%M:%S", on which string_to_time/time_to_string is
a bijection, so comparing parsed dates is comparing the naturals).
-/

namespace ButterflyBackup

/-- One catalog record (one section of `.catalog.cfg`).  The source stores a
free-form key/value bag; the fields below are the ones the engine reads.
`cleaned`/`archived` model presence of the corresponding option: the source
only ever writes the value "True" for them, and every test it performs
(`has_option`, `get` with a falsy fallback, `get(..., fallback="unset")`)
is a presence test. -/
structure Record where
  name : String
  rtype : String
  os : String
  path : String
  timestamp : Nat
  cleaned : Bool
  archived : Bool
deriving DecidableEq, Repr

/-- The catalog: configparser sections in file (insertion) order. -/
abbrev Catalog := List (String × Record)

/-- Filesystem oracle: which paths exist, and for which paths
`shutil.rmtree` succeeds (raising `OSError` otherwise). -/
structure Fs where
  pathExists : String → Bool
  rmtreeOk : String → Bool

/-- bb.py `count_full`: counts the host's records whose type is
"full" or "incremental".  The source applies no cleaned/archived filter. -/
def count_full : Catalog → String → Nat
  | [], _ => 0
  | (_, r) :: rest, host =>
    (if (r.rtype == "full" || r.rtype == "incremental") && r.name == host then 1 else 0)
      + count_full rest host

/-- Modelled from the spec: the count §4.5 asks for, "count of
non-deleted/non-archived records of type {full, incremental} for host".
Used only to compare the source's `count_full` against the spec's words. -/
def count_full_spec (cfg : Catalog) (host : String) : Nat :=
  (cfg.filter (fun p =>
    (p.2.rtype == "full" || p.2.rtype == "incremental") && p.2.name == host
      && !p.2.cleaned && !p.2.archived)).length

/-- bb.py `list_backup`: ids of the host's records, in catalog order. -/
def list_backup : Catalog → String → List String
  | [], _ => []
  | (bid, r) :: rest, host =>
    (if r.name == host then [bid] else []) ++ list_backup rest host

/-- The retention exemption set: `list_backup(config, host)[-retention[1]:]`
when two retention arguments were given, the empty list otherwise.  Python's
`lst[-n:]` is the last `n` elements for `n > 0` but the whole list for
`n = 0`. -/
def exemptList (cfg : Catalog) (host : String) (minCount : Option Nat) : List String :=
  match minCount with
  | none => []
  | some n =>
    let bl := list_backup cfg host
    if n = 0 then bl else bl.drop (bl.length - n)

/-- utility.py `cleanup(path, date, days)`: deletes `path` when its date is
strictly older than `days` days before today, returning 0 on success and 1
when `rmtree` raises `OSError`; returns `None` (here `none`) when the date
is not old enough. -/
def pyCleanup (fs : Fs) (path : String) (ts today days : Nat) : Option Int :=
  if ts < today - days then (if fs.rmtreeOk path then some 0 else some 1) else none

/-- Environment of one `retention_policy` run (globals plus the values the
source computes once before its loop). -/
structure RetEnv where
  host : String
  days : Nat
  today : Nat
  dryRun : Bool
  fs : Fs
  exempt : List String
  fullCount : Nat

/-- One iteration of the `retention_policy` loop over a catalog section.
Returns the threaded `cleanup` variable (initialised to -1 by the source and
only reassigned on iterations that reach the non-dry-run cleanup call), the
possibly updated record, and whether this record's storage was deleted.
The guards mirror the source: exemption list, `cleaned` unset, matching
host, then `continue` for a full/incremental record when `full_count <= 1`;
afterwards `utility.cleanup` runs unless dry-run, a missing path counts as
already cleaned, and a result of 0 marks `cleaned=True` (the write is a
no-op under dry-run, inside `write_catalog`). -/
def retentionStep (env : RetEnv) (cv : Option Int) (bid : String) (r : Record) :
    Option Int × Record × Bool :=
  if bid ∈ env.exempt then (cv, r, false)
  else if r.cleaned then (cv, r, false)
  else if r.name ≠ env.host then (cv, r, false)
  else if (r.rtype = "full" ∨ r.rtype = "incremental") ∧ env.fullCount ≤ 1 then (cv, r, false)
  else
    let c1 : Option Int :=
      if env.dryRun then cv else pyCleanup env.fs r.path r.timestamp env.today env.days
    let c2 : Option Int := if env.fs.pathExists r.path then c1 else some 0
    let deleted : Bool :=
      !env.dryRun && decide (r.timestamp < env.today - env.days) && env.fs.rmtreeOk r.path
    let r' : Record := if !env.dryRun && (c2 == some 0) then { r with cleaned := true } else r
    (c2, r', deleted)

/-- The `retention_policy` loop: processes sections in order, collecting the
updated catalog and the ids whose storage was deleted. -/
def retentionGo (env : RetEnv) : Option Int → Catalog → Catalog × List String
  | _, [] => ([], [])
  | cv, (bid, r) :: rest =>
    let s := retentionStep env cv bid r
    let tail := retentionGo env s.1 rest
    ((bid, s.2.1) :: tail.1, (if s.2.2 then [bid] else []) ++ tail.2)

/-- bb.py `retention_policy(host, catalog, logpath)` with the request
(`args.retention`, `args.dry_run`) made explicit: `days` is `retention[0]`,
`minCount` is `retention[1]` when present.  Returns the catalog after the
run and the ids of the records whose storage was deleted. -/
def retention_policy (host : String) (cfg : Catalog) (days : Nat) (minCount : Option Nat)
    (dryRun : Bool) (fs : Fs) (today : Nat) : Catalog × List String :=
  retentionGo
    { host := host, days := days, today := today, dryRun := dryRun, fs := fs,
      exempt := exemptList cfg host minCount, fullCount := count_full cfg host }
    (some (-1)) cfg

/-- utility.py `archive(path, date, days, destination)`: when the date is
old enough, the path exists and the destination exists, build the zip
archive (success 0, `OSError` 1, modelled by the `mkOk` oracle) and attempt
to delete the source folder; in every other case the source returns `None`
after printing an error. -/
def pyArchiveRes (fs : Fs) (destExists : Bool) (mkOk : String → Bool)
    (path : String) (ts today days : Nat) : Option Int :=
  if ts < today - days then
    if fs.pathExists path then
      if destExists then (if mkOk path then some 0 else some 1) else none
    else none
  else none

/-- Environment of one `archive_policy` run. -/
structure ArchEnv where
  days : Nat
  today : Nat
  dryRun : Bool
  fs : Fs
  destExists : Bool
  mkOk : String → Bool

/-- One iteration of the `archive_policy` loop.  The source processes a
section only when `archived` is unset and `cleaned` is falsy, skips a full
record when the host's `count_full` is at most 1, then calls
`utility.archive` unless dry-run and marks `archived=True` on result 0.
Deletion of the source folder happens inside `utility.archive`, after a
successful compression, via `utility.cleanup`. -/
def archiveStep (env : ArchEnv) (fullCount : Nat) (av : Option Int) (r : Record) :
    Option Int × Record × Bool :=
  if r.archived then (av, r, false)
  else if r.cleaned then (av, r, false)
  else if r.rtype = "full" ∧ fullCount ≤ 1 then (av, r, false)
  else
    let a1 : Option Int :=
      if env.dryRun then av
      else pyArchiveRes env.fs env.destExists env.mkOk r.path r.timestamp env.today env.days
    let deleted : Bool :=
      !env.dryRun && decide (r.timestamp < env.today - env.days) && env.fs.pathExists r.path
        && env.destExists && env.mkOk r.path && env.fs.rmtreeOk r.path
    let r' : Record := if !env.dryRun && (a1 == some 0) then { r with archived := true } else r
    (a1, r', deleted)

/-- The `archive_policy` loop.  `cfg0` is the catalog as read before the
loop: the source recomputes `count_full` for every section's host against
that in-memory object (file writes do not feed back into it). -/
def archiveGo (env : ArchEnv) (cfg0 : Catalog) : Option Int → Catalog → Catalog × List String
  | _, [] => ([], [])
  | av, (bid, r) :: rest =>
    let s := archiveStep env (count_full cfg0 r.name) av r
    let tail := archiveGo env cfg0 s.1 rest
    ((bid, s.2.1) :: tail.1, (if s.2.2 then [bid] else []) ++ tail.2)

/-- bb.py `archive_policy(catalog, destination)` with the request
(`args.days`, `args.dry_run`) explicit.  Scans every host's records;
returns the catalog after the run and the ids whose source storage was
deleted by the archive engine. -/
def archive_policy (cfg : Catalog) (days : Nat) (dryRun : Bool) (fs : Fs)
    (destExists : Bool) (mkOk : String → Bool) (today : Nat) : Catalog × List String :=
  archiveGo
    { days := days, today := today, dryRun := dryRun, fs := fs,
      destExists := destExists, mkOk := mkOk }
    cfg (some (-1)) cfg

/-- Maximum of a list of dates; the source sorts the list and takes the
last element, which for naturals is the fold of `max` over 0. -/
def listMax (l : List Nat) : Nat := l.foldl Nat.max 0

/-- The condition under which `get_last_backup` collects a section's date:
the host matches and `cleaned` is unset **or** `archived` is unset (the
source's literal `not has_option ... or not has_option ...`). -/
def lb_eligible (hostname : String) (p : String × Record) : Bool :=
  p.2.name == hostname && (!p.2.cleaned || !p.2.archived)

/-- The date list `get_last_backup` builds. -/
def lb_dates (cfg : Catalog) (hostname : String) : List Nat :=
  (cfg.filter (lb_eligible hostname)).map (fun p => p.2.timestamp)

/-- bb.py `get_last_backup(catalog)`: collects the timestamps of the host's
sections satisfying `lb_eligible`, takes the latest, then rescans for the
first section of the host carrying that timestamp (the rescan applies no
marker filter) and returns its path, os and id. -/
def get_last_backup (cfg : Catalog) (hostname : String) : Option (String × String × String) :=
  if (lb_dates cfg hostname).isEmpty then none
  else
    match cfg.find? (fun p =>
        p.2.name == hostname && p.2.timestamp == listMax (lb_dates cfg hostname)) with
    | some p => some (p.2.path, p.2.os, p.1)
    | none => none

/-- bb.py `get_last_full(catalog)`: as `get_last_backup` but restricted to
`type == "full"` in both scans. -/
def get_last_full (cfg : Catalog) (hostname : String) : Option (String × String) :=
  let dates := (cfg.filter (fun p =>
    p.2.rtype == "full" && p.2.name == hostname && (!p.2.cleaned || !p.2.archived))).map
      (fun p => p.2.timestamp)
  if dates.isEmpty then none
  else
    match cfg.find? (fun p =>
        p.2.rtype == "full" && p.2.name == hostname && p.2.timestamp == listMax dates) with
    | some p => some (p.2.path, p.2.os)
    | none => none

/-- The incremental branch of bb.py `compose_command` for the backup
action: when `get_last_backup` finds a record, the command links against
its path (unless `--start-from` was given) and the record's type is written
as "incremental"; otherwise the mode degrades to a plain full backup.
Returns (type written to the catalog, `--link-dest` baseline). -/
def compose_incremental (cfg : Catalog) (host : String) (sfrom : Bool) :
    String × Option String :=
  match get_last_backup cfg host with
  | some (path, _, _) => ("incremental", if sfrom then none else some path)
  | none => ("full", none)

/-- One job handed to `run_in_parallel`: the assembled rsync command line,
the originating catalog record id and hostname (from the `logs` entry zipped
with it), and the exit code its subprocess returned. -/
structure Job where
  command : String
  id : String
  hostname : String
  exitCode : Nat
deriving DecidableEq, Repr

/-- Log levels the scheduler classifies completions with. -/
inductive LogLevel where
  | info
  | warning
  | error
deriving DecidableEq, Repr

/-- The per-job effects of the completion loop of bb.py `run_in_parallel`:
catalog writes (id, key, value), the classification logged for the job's
command, hostnames for which `retention_policy` is triggered, and the
commands collected into the retry list. -/
structure SchedOut where
  writes : List (String × String × String)
  logs : List (String × LogLevel)
  retentionHosts : List String
  retries : List String
deriving DecidableEq, Repr

/-- Concatenation of scheduler effects, in loop order. -/
def SchedOut.append (a b : SchedOut) : SchedOut :=
  { writes := a.writes ++ b.writes, logs := a.logs ++ b.logs,
    retentionHosts := a.retentionHosts ++ b.retentionHosts,
    retries := a.retries ++ b.retries }

/-- Effects of one completed job, mirroring the source's branch structure:
a non-zero exit is logged WARNING when the code is 23 or 24 (rsync partial
transfer) and ERROR otherwise, has `end` and its real `status` written for
the backup action (with retention only when both `--retention` and
`--skip-error` were given), and its command joins the retry list; a zero
exit is logged INFO, has `end` and `status=0` written for the backup
action, and triggers retention when configured. -/
def jobEffects (action : String) (retention skipErr : Bool) (endTime : String)
    (j : Job) : SchedOut :=
  if j.exitCode ≠ 0 then
    { logs := [(j.command, if j.exitCode = 23 ∨ j.exitCode = 24 then .warning else .error)],
      writes :=
        if action = "backup" then
          [(j.id, "end", endTime), (j.id, "status", toString j.exitCode)]
        else [],
      retentionHosts :=
        if action = "backup" ∧ retention ∧ skipErr then [j.hostname] else [],
      retries := [j.command] }
  else
    { logs := [(j.command, .info)],
      writes :=
        if action = "backup" then
          [(j.id, "end", endTime), (j.id, "status", "0")]
        else [],
      retentionHosts := if action = "backup" ∧ retention then [j.hostname] else [],
      retries := [] }

/-- The completion loop of `run_in_parallel` over the zipped jobs. -/
def schedLoop (action : String) (retention skipErr : Bool) (endTime : String) :
    List Job → SchedOut
  | [] => { writes := [], logs := [], retentionHosts := [], retries := [] }
  | j :: rest =>
    (jobEffects action retention skipErr endTime j).append
      (schedLoop action retention skipErr endTime rest)

/-- bb.py `run_in_parallel`: before dispatch each job's record gets a
`start` write (backup action only); after the pool joins, the completion
loop classifies every job.  The retry list it returns is the scheduler's
value. -/
def run_in_parallel (action : String) (retention skipErr : Bool)
    (startTime endTime : String) (jobs : List Job) : SchedOut :=
  let dispatch : SchedOut :=
    { writes :=
        if action = "backup" then jobs.map (fun j => (j.id, "start", startTime)) else [],
      logs := [], retentionHosts := [], retries := [] }
  dispatch.append (schedLoop action retention skipErr endTime jobs)

/-- The catalog file as a raw INI structure: sections in order, each a list
of key/value options, for modelling `write_catalog` at the file level. -/
abbrev IniFile := List (String × List (String × String))

/-- Upsert of one option into one section (`config.set`, adding the section
first when missing — `configparser.DuplicateSectionError` falls back to a
plain set). -/
def ini_set (cfg : IniFile) (sect key value : String) : IniFile :=
  if cfg.any (fun p => p.1 == sect) then
    cfg.map (fun p =>
      if p.1 == sect then
        (p.1, if p.2.any (fun kv => kv.1 == key) then
          p.2.map (fun kv => if kv.1 == key then (key, value) else kv)
        else p.2 ++ [(key, value)])
      else p)
  else cfg ++ [(sect, [(key, value)])]

/-- bb.py `write_catalog(catalog, section, key, value)`: reads the file,
and only when `args.dry_run` is not set upserts the field and rewrites the
whole file; under dry-run the file is left untouched. -/
def write_catalog (dryRun : Bool) (cfg : IniFile) (sect key value : String) : IniFile :=
  if dryRun then cfg else ini_set cfg sect key value

/-- bb.py `delete_host(catalog, host)`: after the confirmation prompt
(auto-yes under `--force`), every record of the host is removed from the
catalog — deleting its storage first via `utility.cleanup(path, date, 0)`
when the path exists (a failed deletion keeps the record) — then the host's
root folder is removed with `rmtree` and the catalog file rewritten.  The
function takes the dry-run flag of the request but, unlike
`retention_policy` and `write_catalog`, never consults it: no branch below
depends on `_dryRun`.  Returns the rewritten catalog and the deleted paths
(records' storage and the host root). -/
def delete_host_go (fs : Fs) (today : Nat) (host : String) :
    Catalog → Catalog × List String
  | [] => ([], [])
  | (bid, r) :: rest =>
    let tail := delete_host_go fs today host rest
    if r.name ≠ host then ((bid, r) :: tail.1, tail.2)
    else if r.path = "" ∨ ¬ fs.pathExists r.path then (tail.1, tail.2)
    else
      match pyCleanup fs r.path r.timestamp today 0 with
      | some 0 => (tail.1, r.path :: tail.2)
      | _ => ((bid, r) :: tail.1, tail.2)

def delete_host (_dryRun : Bool) (confirmed : Bool) (cfg : Catalog) (fs : Fs)
    (today : Nat) (root : String) (host : String) : Catalog × List String :=
  if confirmed then
    let res := delete_host_go fs today host cfg
    (res.1, res.2 ++ (if fs.pathExists root then [root] else []))
  else (cfg, [])

/-- bb.py `map_dict_folder(os_name)`: the fixed per-OS taxonomy tables, as
an ordered dictionary (Python dicts preserve insertion order, which the
restore mapper's loop depends on).  An unrecognized OS name leaves the
dictionary empty. -/
def map_dict_folder (os_name : String) : List (String × String) :=
  if os_name = "unix" then
    [("user", "/home"), ("config", "/etc"), ("application", "/usr"),
     ("system", "/"), ("log", "/var/log")]
  else if os_name = "windows" then
    [("user", "/cygdrive/c/Users"), ("config", "/cygdrive/c/ProgramData"),
     ("application", "/cygdrive/c/Program Files"), ("system", "/cygdrive/c"),
     ("log", "/cygdrive/c/Windows/System32/winevt")]
  else if os_name = "macos" then
    [("user", "/Users"), ("config", "/private/etc"), ("application", "/Applications"),
     ("system", "/"), ("log", "/private/var/log")]
  else []

/-- Modelled from the spec: §4.2's contract "no failure modes beyond an
unrecognized OS family (fails with UnknownOSFamily)"; used only to compare
the source's `map_dict_folder` against the spec's words. -/
def folders_spec (os_name : String) : Except String (List (String × String)) :=
  if os_name = "unix" ∨ os_name = "windows" ∨ os_name = "macos" then
    Except.ok (map_dict_folder os_name)
  else Except.error "UnknownOSFamily"

/-- Whether the first character list begins the second. -/
def charsStart : List Char → List Char → Bool
  | [], _ => true
  | _ :: _, [] => false
  | a :: as, b :: bs => a == b && charsStart as bs

/-- Whether the first character list occurs contiguously in the second. -/
def charsInfix (n : List Char) : List Char → Bool
  | [] => n.isEmpty
  | b :: bs => charsStart n (b :: bs) || charsInfix n bs

/-- Python's `in` on strings: substring containment. -/
def substr (needle hay : String) : Bool := charsInfix needle.toList hay.toList

/-- Whether a string ends with a path separator. -/
def endsWithSlash (s : String) : Bool := s.toList.getLast? == some '/'

/-- Whether `pre` begins `s` (Python `str.startswith`). -/
def strStarts (s pre : String) : Bool := charsStart pre.toList s.toList

/-- `os.path.join` for the shapes this program produces (the right operand
never starts with a slash). -/
def joinPath (a b : String) : String := if endsWithSlash a then a ++ b else a ++ "/" ++ b

/-- Python dict access `d[k]` on a taxonomy table. -/
def dictGet (d : List (String × String)) (k : String) : String :=
  match d.find? (fun p => p.1 == k) with
  | some p => p.2
  | none => ""

/-- bb.py `compose_restore_src_dst(backup_os, restore_os, restore_path)`:
the source iterates over every key of the backup-OS table **without
breaking**, reassigning `rsrc`/`rdst` on each of the five iterations, so
the surviving value is the one computed for the last key ("log").  Each
iteration: if `restore_path` occurs as a substring of the backup root, map
to the restore-OS root of the same key; otherwise use `--root-dir` (made
absolute) when given, else a generated `restore_<timestamp>` folder under
the restore-OS system root.  The folded `none` start models the unbound
Python locals when the table is empty, and the final guard models the
source's `if rsrc and rdst` truthiness check. -/
def compose_restore_src_dst (backup_os restore_os restore_path : String)
    (root_dir : Option String) (ts : String) : Option (String × String) :=
  let r := map_dict_folder restore_os
  let step := fun (_acc : Option (String × String)) (kv : String × String) =>
    if substr restore_path kv.2 then
      some (joinPath restore_path "*", dictGet r kv.1)
    else
      match root_dir with
      | some rd => some (restore_path, if strStarts rd "/" then rd else "/" ++ rd)
      | none => some (restore_path, joinPath (dictGet r "system") ("restore_" ++ ts))
  match (map_dict_folder backup_os).foldl step none with
  | some (rsrc, rdst) => if rsrc ≠ "" ∧ rdst ≠ "" then some (rsrc, rdst) else none
  | none => none

/-- Outcome of `fabric.Connection.open()` inside utility.py `check_ssh`. -/
inductive ConnResult where
  | ok
  | authFail
  | connFail
deriving DecidableEq, Repr

/-- utility.py `check_ssh(ip, user, port=22)`: opens the connection and
returns True on success; on `AuthenticationException` it prints a warning
and **returns True**; only every other exception returns False. -/
def check_ssh : ConnResult → Bool
  | .ok => true
  | .authFail => true
  | .connFail => false

/-- The per-host gate of the backup loop of `main` (dataflow once the probe
yields a boolean): a falsy probe logs an error and `continue`s the host;
without `--verbose` a failed `check_configuration` also skips it; every
surviving host gets a job composed.  Returns the hosts a job is created
for. -/
def backup_loop_hosts_with_jobs (probe : String → Bool) (confOk : String → Bool)
    (verbose : Bool) : List String → List String
  | [] => []
  | h :: rest =>
    if probe h = false then backup_loop_hosts_with_jobs probe confOk verbose rest
    else if ¬ verbose ∧ confOk h = false then
      backup_loop_hosts_with_jobs probe confOk verbose rest
    else h :: backup_loop_hosts_with_jobs probe confOk verbose rest

/-- Number of parameters of utility.py `check_ssh(ip, user, port=22)`. -/
def check_ssh_param_count : Nat := 3

/-- Parameters of `check_ssh` without a default value (`ip`, `user`). -/
def check_ssh_required_count : Nat := 2

/-- Positional arguments at the backup call site,
`utility.check_ssh(hostname, args.user, args.keytype, port)`. -/
def backup_ssh_call_argc : Nat := 4

/-- Positional arguments at the restore call site,
`utility.check_ssh(rhost, args.user, args.keytype, port)`. -/
def restore_ssh_call_argc : Nat := 4

/-- Python call semantics: a plain call binds positionally and raises
`TypeError` unless `required ≤ argc ≤ params`. -/
def py_call_ok (required params argc : Nat) : Bool :=
  required ≤ argc && argc ≤ params

/-- Result of a Python expression that may raise. -/
inductive PyOutcome (α : Type) where
  | ok (a : α)
  | typeError
deriving DecidableEq, Repr

/-- The call `utility.check_ssh(...)` with `argc` positional arguments:
arity is checked before the body runs. -/
def call_check_ssh (conn : ConnResult) (argc : Nat) : PyOutcome Bool :=
  if py_call_ok check_ssh_required_count check_ssh_param_count argc then
    .ok (check_ssh conn)
  else .typeError

/-- The backup loop of `main` as written, its `utility.check_ssh` call made
with `backup_ssh_call_argc` positional arguments: an uncaught `TypeError`
in the first iteration aborts `main` before `run_in_parallel` is reached. -/
def backup_main_jobs (probe : String → ConnResult) (confOk : String → Bool)
    (verbose : Bool) : List String → PyOutcome (List String)
  | [] => .ok []
  | h :: rest =>
    match call_check_ssh (probe h) backup_ssh_call_argc with
    | .typeError => .typeError
    | .ok false => backup_main_jobs probe confOk verbose rest
    | .ok true =>
      if ¬ verbose ∧ confOk h = false then backup_main_jobs probe confOk verbose rest
      else
        match backup_main_jobs probe confOk verbose rest with
        | .typeError => .typeError
        | .ok js => .ok (h :: js)

/-- Jobs that reach `run_in_parallel`: none when `main` aborted on an
exception (the dispatch at the end of the backup session is never
executed). -/
def dispatched : PyOutcome (List String) → List String
  | .ok js => js
  | .typeError => []

/-- bb.py `compose_destination(computer_name, folder)`: the destination is
`<root>/<host>/<timestamp folder>`, except in mirror mode where it is the
fixed `<root>/<host>/mirror_backup`. -/
def compose_destination_path (root host mode tsFolder : String) : String :=
  if mode ≠ "mirror" then joinPath (joinPath root host) tsFolder
  else joinPath (joinPath root host) "mirror_backup"

/-- `os.mkdir` guarded by `os.path.exists`: created at most once. -/
def mkdirIfAbsent (dirs : List String) (d : String) : List String :=
  if d ∈ dirs then dirs else dirs ++ [d]

/-- The `type` value `compose_command` writes for the requested mode
(incremental and differential degrade to full when no baseline is found;
mode choices are restricted by the argument parser to these four). -/
def backup_type (cfg : Catalog) (host mode : String) : String :=
  if mode = "full" then "full"
  else if mode = "incremental" then
    (if (get_last_backup cfg host).isSome then "incremental" else "full")
  else if mode = "differential" then
    (if (get_last_full cfg host).isSome then "differential" else "full")
  else "mirror"

/-- `config.add_section`/`config.set` net effect of one backup run's
writes for a single backup id. -/
def catalog_upsert (cfg : Catalog) (bid : String) (r : Record) : Catalog :=
  if cfg.any (fun p => p.1 == bid) then
    cfg.map (fun p => if p.1 == bid then (bid, r) else p)
  else cfg ++ [(bid, r)]

/-- One iteration of the backup session of `main` for one host: a fresh
`backup_id` is generated, `name`/`os` are written, `compose_command`
writes `type`, `compose_destination` creates the two folder layers on
demand and writes `path`, and finally `timestamp` is written.  Returns the
catalog and the folder set after the run. -/
def backup_run (cfg : Catalog) (dirs : List String) (bid host osName mode root : String)
    (ts : Nat) (tsFolder : String) : Catalog × List String :=
  let dest := compose_destination_path root host mode tsFolder
  (catalog_upsert cfg bid
    { name := host, rtype := backup_type cfg host mode, os := osName,
      path := dest, timestamp := ts, cleaned := false, archived := false },
   mkdirIfAbsent (mkdirIfAbsent dirs (joinPath root host)) dest)

/-! ## Concrete fixtures used by the claim theorems -/

/-- A filesystem in which every path exists and every `rmtree` succeeds. -/
def fsAll : Fs := { pathExists := fun _ => true, rmtreeOk := fun _ => true }

/-- Catalog with two full backups of web01, the first already cleaned: the
second is the host's only non-cleaned, non-archived full/incremental
record. -/
def cfgC1 : Catalog :=
  [("aaaa", { name := "web01", rtype := "full", os := "unix", path := "/bck/web01/t1",
              timestamp := 1, cleaned := true, archived := false }),
   ("bbbb", { name := "web01", rtype := "full", os := "unix", path := "/bck/web01/t2",
              timestamp := 2, cleaned := false, archived := false })]

/-- The sole full backup of web01, old enough that only the protection
guard saves it. -/
def recC1solo : Record :=
  { name := "web01", rtype := "full", os := "unix", path := "/bck/web01/t1",
    timestamp := 0, cleaned := false, archived := false }

/-- An archived, not-yet-cleaned differential backup of web01. -/
def cfgC2 : Catalog :=
  [("xxxx", { name := "web01", rtype := "differential", os := "unix",
              path := "/bck/web01/t3", timestamp := 3, cleaned := false,
              archived := true })]

/-- A cleaned, old record that the archive engine must leave alone. -/
def recC2w : Record :=
  { name := "web01", rtype := "incremental", os := "unix", path := "/bck/web01/t4",
    timestamp := 0, cleaned := true, archived := false }

/-- A cleaned (but not archived) full backup: under the spec's reading the
host has no eligible baseline, yet the source still selects it. -/
def cfgC3 : Catalog :=
  [("cccc", { name := "web01", rtype := "full", os := "unix", path := "/bck/web01/t1",
              timestamp := 5, cleaned := true, archived := false })]

/-- Three jobs: one success, one partial transfer (23), one hard error. -/
def jobsC4 : List Job :=
  [{ command := "rsync a", id := "i1", hostname := "h1", exitCode := 0 },
   { command := "rsync b", id := "i2", hostname := "h2", exitCode := 23 },
   { command := "rsync c", id := "i3", hostname := "h3", exitCode := 12 }]

/-- One live backup of web01 whose storage exists. -/
def cfgC5 : Catalog :=
  [("dddd", { name := "web01", rtype := "full", os := "unix", path := "/bck/web01/t1",
              timestamp := 0, cleaned := false, archived := false })]

/-- A probe for which web01 fails with a non-authentication connection
error and every other host connects. -/
def probeC7 : String → ConnResult :=
  fun x => if x == "web01" then ConnResult.connFail else ConnResult.ok

/-- First mirror-mode backup run of web01 into an empty catalog. -/
def mirrorRun1 : Catalog × List String :=
  backup_run [] [] "id-1" "web01" "unix" "mirror" "/bck" 1 "t1"

/-- Second mirror-mode backup run of web01, on the state the first left. -/
def mirrorRun2 : Catalog × List String :=
  backup_run mirrorRun1.1 mirrorRun1.2 "id-2" "web01" "unix" "mirror" "/bck" 2 "t2"

/-! ## Helper lemmas -/

/-- A full/incremental record is skipped by the retention loop body whenever
the host's `count_full` is at most 1, whatever other state the iteration
carries. -/
theorem retentionStep_protected (env : RetEnv) (cv : Option Int) (bid : String) (r : Record)
    (hty : r.rtype = "full" ∨ r.rtype = "incremental") (hc : env.fullCount ≤ 1) :
    retentionStep env cv bid r = (cv, r, false) := by
  unfold retentionStep
  split_ifs with h1 h2 h3 h4 <;> first | rfl | exact absurd ⟨hty, hc⟩ h4

/-- Every id the retention loop reports as deleted is the id of some
section of the catalog it scanned. -/
theorem retentionGo_deleted_subset (env : RetEnv) :
    ∀ (cv : Option Int) (cfg : Catalog) (x : String),
      x ∈ (retentionGo env cv cfg).2 → x ∈ cfg.map Prod.fst := by
  intro cv cfg
  induction cfg generalizing cv with
  | nil => intro x hx; simp [retentionGo] at hx
  | cons p rest ih =>
    obtain ⟨b0, r0⟩ := p
    intro x hx
    simp only [retentionGo, List.mem_append] at hx
    rcases hx with hx | hx
    · rcases Bool.eq_false_or_eq_true (retentionStep env cv b0 r0).2.2 with ht | hf
      · simp [ht] at hx
        simp [hx]
      · simp [hf] at hx
    · exact List.mem_cons_of_mem _ (ih _ x hx)

/-- Skipped records survive the retention loop untouched and undeleted. -/
theorem retentionGo_protected_mem (env : RetEnv) (bid : String) (r : Record)
    (hty : r.rtype = "full" ∨ r.rtype = "incremental") (hc : env.fullCount ≤ 1) :
    ∀ (cv : Option Int) (cfg : Catalog), (bid, r) ∈ cfg → (cfg.map Prod.fst).Nodup →
      (bid, r) ∈ (retentionGo env cv cfg).1 ∧ bid ∉ (retentionGo env cv cfg).2 := by
  intro cv cfg
  induction cfg generalizing cv with
  | nil => intro h; simp at h
  | cons p rest ih =>
    obtain ⟨b0, r0⟩ := p
    intro hmem hnd
    simp only [List.map_cons, List.nodup_cons] at hnd
    rcases List.mem_cons.mp hmem with heq | htail
    · obtain ⟨hb, hr⟩ := Prod.mk.injEq .. ▸ heq
      subst hb; subst hr
      have hstep := retentionStep_protected env cv bid r hty hc
      constructor
      · simp [retentionGo, hstep]
      · simp only [retentionGo, hstep, List.mem_append]
        rintro (hx | hx)
        · simp at hx
        · exact hnd.1 (retentionGo_deleted_subset env _ rest bid hx)
    · have hrec := ih (retentionStep env cv b0 r0).1 htail hnd.2
      have hbne : bid ≠ b0 := by
        intro hcontra
        exact hnd.1 (hcontra ▸ List.mem_map_of_mem Prod.fst htail)
      constructor
      · simp only [retentionGo]
        exact List.mem_cons_of_mem _ hrec.1
      · simp only [retentionGo, List.mem_append]
        rintro (hx | hx)
        · rcases Bool.eq_false_or_eq_true (retentionStep env cv b0 r0).2.2 with ht | hf
          · simp [ht] at hx
            exact hbne hx
          · simp [hf] at hx
        · exact hrec.2 hx

/-- A record whose `cleaned` marker is set is skipped by the archive loop
body: the source's guard requires `cleaned` to be falsy before archiving. -/
theorem archiveStep_cleaned (env : ArchEnv) (fc : Nat) (av : Option Int) (r : Record)
    (hcl : r.cleaned = true) :
    archiveStep env fc av r = (av, r, false) := by
  unfold archiveStep
  split_ifs <;> rfl

/-- Every id the archive loop reports as deleted is the id of some section
of the catalog it scanned. -/
theorem archiveGo_deleted_subset (env : ArchEnv) (cfg0 : Catalog) :
    ∀ (av : Option Int) (cfg : Catalog) (x : String),
      x ∈ (archiveGo env cfg0 av cfg).2 → x ∈ cfg.map Prod.fst := by
  intro av cfg
  induction cfg generalizing av with
  | nil => intro x hx; simp [archiveGo] at hx
  | cons p rest ih =>
    obtain ⟨b0, r0⟩ := p
    intro x hx
    simp only [archiveGo, List.mem_append] at hx
    rcases hx with hx | hx
    · rcases Bool.eq_false_or_eq_true (archiveStep env (count_full cfg0 r0.name) av r0).2.2
        with ht | hf
      · simp [ht] at hx
        simp [hx]
      · simp [hf] at hx
    · exact List.mem_cons_of_mem _ (ih _ x hx)

/-- Cleaned records survive the archive loop untouched and undeleted. -/
theorem archiveGo_cleaned_mem (env : ArchEnv) (cfg0 : Catalog) (bid : String) (r : Record)
    (hcl : r.cleaned = true) :
    ∀ (av : Option Int) (cfg : Catalog), (bid, r) ∈ cfg → (cfg.map Prod.fst).Nodup →
      (bid, r) ∈ (archiveGo env cfg0 av cfg).1 ∧ bid ∉ (archiveGo env cfg0 av cfg).2 := by
  intro av cfg
  induction cfg generalizing av with
  | nil => intro h; simp at h
  | cons p rest ih =>
    obtain ⟨b0, r0⟩ := p
    intro hmem hnd
    simp only [List.map_cons, List.nodup_cons] at hnd
    rcases List.mem_cons.mp hmem with heq | htail
    · obtain ⟨hb, hr⟩ := Prod.mk.injEq .. ▸ heq
      subst hb; subst hr
      have hstep := archiveStep_cleaned env (count_full cfg0 r.name) av r hcl
      constructor
      · simp [archiveGo, hstep]
      · simp only [archiveGo, hstep, List.mem_append]
        rintro (hx | hx)
        · simp at hx
        · exact hnd.1 (archiveGo_deleted_subset env cfg0 _ rest bid hx)
    · have hrec := ih (archiveStep env (count_full cfg0 r0.name) av r0).1 htail hnd.2
      have hbne : bid ≠ b0 := by
        intro hcontra
        exact hnd.1 (hcontra ▸ List.mem_map_of_mem Prod.fst htail)
      constructor
      · simp only [archiveGo]
        exact List.mem_cons_of_mem _ hrec.1
      · simp only [archiveGo, List.mem_append]
        rintro (hx | hx)
        · rcases Bool.eq_false_or_eq_true
              (archiveStep env (count_full cfg0 r0.name) av r0).2.2 with ht | hf
          · simp [ht] at hx
            exact hbne hx
          · simp [hf] at hx
        · exact hrec.2 hx

/-- Under dry-run the retention loop body neither deletes nor rewrites: the
cleanup call is guarded by `dry_run` and the `cleaned` write is a no-op
inside `write_catalog`. -/
theorem retentionStep_dryRun (env : RetEnv) (hdr : env.dryRun = true)
    (cv : Option Int) (bid : String) (r : Record) :
    (retentionStep env cv bid r).2 = (r, false) := by
  unfold retentionStep
  split_ifs <;> simp [hdr]

/-- Under dry-run a whole retention run returns the catalog unchanged and
deletes nothing. -/
theorem retentionGo_dryRun (env : RetEnv) (hdr : env.dryRun = true) :
    ∀ (cv : Option Int) (cfg : Catalog), retentionGo env cv cfg = (cfg, []) := by
  intro cv cfg
  induction cfg generalizing cv with
  | nil => simp [retentionGo]
  | cons p rest ih =>
    obtain ⟨b0, r0⟩ := p
    have hstep := retentionStep_dryRun env hdr cv b0 r0
    simp [retentionGo, Prod.ext_iff.mp hstep, ih]

/-- Under dry-run the archive loop body neither deletes nor rewrites. -/
theorem archiveStep_dryRun (env : ArchEnv) (hdr : env.dryRun = true)
    (fc : Nat) (av : Option Int) (r : Record) :
    (archiveStep env fc av r).2 = (r, false) := by
  unfold archiveStep
  split_ifs <;> simp [hdr]

/-- Under dry-run a whole archive run returns the catalog unchanged and
deletes nothing. -/
theorem archiveGo_dryRun (env : ArchEnv) (hdr : env.dryRun = true) (cfg0 : Catalog) :
    ∀ (av : Option Int) (cfg : Catalog), archiveGo env cfg0 av cfg = (cfg, []) := by
  intro av cfg
  induction cfg generalizing av with
  | nil => simp [archiveGo]
  | cons p rest ih =>
    obtain ⟨b0, r0⟩ := p
    have hstep := archiveStep_dryRun env hdr (count_full cfg0 r0.name) av r0
    simp [archiveGo, Prod.ext_iff.mp hstep, ih]

theorem foldl_max_init (l : List Nat) : ∀ a : Nat, a ≤ l.foldl Nat.max a := by
  induction l with
  | nil => intro a; simp
  | cons x t ih => intro a; exact le_trans (Nat.le_max_left a x) (ih (Nat.max a x))

theorem foldl_max_le_of_mem (l : List Nat) :
    ∀ (a x : Nat), x ∈ l → x ≤ l.foldl Nat.max a := by
  induction l with
  | nil => intro a x hx; simp at hx
  | cons y t ih =>
    intro a x hx
    rcases List.mem_cons.mp hx with rfl | hx
    · exact le_trans (Nat.le_max_right a x) (foldl_max_init t _)
    · exact ih _ x hx

theorem foldl_max_cases (l : List Nat) :
    ∀ a : Nat, l.foldl Nat.max a = a ∨ l.foldl Nat.max a ∈ l := by
  induction l with
  | nil => intro a; left; rfl
  | cons y t ih =>
    intro a
    rw [List.foldl_cons]
    rcases ih (Nat.max a y) with h | h
    · rcases Nat.le_total a y with hle | hle
      · right
        have h2 : Nat.max a y = y := Nat.max_eq_right hle
        rw [h, h2]; exact List.mem_cons_self y t
      · left
        have h2 : Nat.max a y = a := Nat.max_eq_left hle
        rw [h, h2]
    · right; exact List.mem_cons_of_mem _ h

/-- Sorting the date list and taking the last element yields an upper bound
of the list. -/
theorem le_listMax (l : List Nat) (x : Nat) (h : x ∈ l) : x ≤ listMax l :=
  foldl_max_le_of_mem l 0 x h

/-- Sorting a nonempty date list and taking the last element yields an
element of the list. -/
theorem listMax_mem (l : List Nat) (h : l ≠ []) : listMax l ∈ l := by
  rcases foldl_max_cases l 0 with h0 | h1
  · cases l with
    | nil => exact absurd rfl h
    | cons y t =>
      have hy : y ≤ listMax (y :: t) := le_listMax _ y (List.mem_cons_self y t)
      have hmax : listMax (y :: t) = 0 := h0
      rw [hmax] at hy ⊢
      exact Nat.le_zero.mp hy ▸ List.mem_cons_self y t
  · exact h1

/-- Every completed job is logged with the classification the source's
branches give its exit code: INFO at 0, WARNING at 23/24, ERROR at every
other non-zero code. -/
theorem schedLoop_logs (act : String) (ret se : Bool) (et : String) :
    ∀ (jobs : List Job) (j : Job), j ∈ jobs →
      (j.command,
        if j.exitCode = 0 then LogLevel.info
        else if j.exitCode = 23 ∨ j.exitCode = 24 then LogLevel.warning
        else LogLevel.error) ∈ (schedLoop act ret se et jobs).logs := by
  intro jobs
  induction jobs with
  | nil => intro j hj; simp at hj
  | cons x t ih =>
    intro j hj
    rcases List.mem_cons.mp hj with rfl | hj
    · by_cases h0 : j.exitCode = 0 <;>
        simp [schedLoop, jobEffects, SchedOut.append, h0]
    · simp only [schedLoop, SchedOut.append, List.mem_append]
      exact Or.inr (ih j hj)

/-- For the backup action every completed job has `end` and its real
status written. -/
theorem schedLoop_writes (ret se : Bool) (et : String) :
    ∀ (jobs : List Job) (j : Job), j ∈ jobs →
      (j.id, "end", et) ∈ (schedLoop "backup" ret se et jobs).writes ∧
      (j.id, "status", toString j.exitCode) ∈ (schedLoop "backup" ret se et jobs).writes := by
  intro jobs
  induction jobs with
  | nil => intro j hj; simp at hj
  | cons x t ih =>
    intro j hj
    rcases List.mem_cons.mp hj with rfl | hj
    · by_cases h0 : j.exitCode = 0
      · have hts : toString (0 : Nat) = "0" := rfl
        simp [schedLoop, jobEffects, SchedOut.append, h0, hts]
      · simp [schedLoop, jobEffects, SchedOut.append, h0]
    · refine ⟨?_, ?_⟩ <;> simp only [schedLoop, SchedOut.append, List.mem_append]
      · exact Or.inr (ih j hj).1
      · exact Or.inr (ih j hj).2

/-- Every job with a non-zero exit code lands in the retry list. -/
theorem schedLoop_retries_complete (act : String) (ret se : Bool) (et : String) :
    ∀ (jobs : List Job) (j : Job), j ∈ jobs → j.exitCode ≠ 0 →
      j.command ∈ (schedLoop act ret se et jobs).retries := by
  intro jobs
  induction jobs with
  | nil => intro j hj; simp at hj
  | cons x t ih =>
    intro j hj h0
    rcases List.mem_cons.mp hj with rfl | hj
    · simp [schedLoop, jobEffects, SchedOut.append, h0]
    · simp only [schedLoop, SchedOut.append, List.mem_append]
      exact Or.inr (ih j hj h0)

/-- Every command in the retry list came from a job with a non-zero exit
code. -/
theorem schedLoop_retries_sound (act : String) (ret se : Bool) (et : String) :
    ∀ (jobs : List Job) (c : String), c ∈ (schedLoop act ret se et jobs).retries →
      ∃ j ∈ jobs, j.command = c ∧ j.exitCode ≠ 0 := by
  intro jobs
  induction jobs with
  | nil => intro c hc; simp [schedLoop] at hc
  | cons x t ih =>
    intro c hc
    simp only [schedLoop, SchedOut.append, List.mem_append] at hc
    rcases hc with hc | hc
    · by_cases h0 : x.exitCode = 0
      · simp [jobEffects, h0] at hc
      · simp [jobEffects, h0] at hc
        exact ⟨x, List.mem_cons_self x t, hc.symm, h0⟩
    · obtain ⟨j, hj, hcmd, h0⟩ := ih c hc
      exact ⟨j, List.mem_cons_of_mem x hj, hcmd, h0⟩

/-- A host whose probe is falsy receives no job from the backup loop. -/
theorem backup_loop_not_mem (probe : String → Bool) (confOk : String → Bool)
    (verbose : Bool) (h : String) (hp : probe h = false) :
    ∀ hosts, h ∉ backup_loop_hosts_with_jobs probe confOk verbose hosts := by
  intro hosts
  induction hosts with
  | nil => simp [backup_loop_hosts_with_jobs]
  | cons x t ih =>
    simp only [backup_loop_hosts_with_jobs]
    split_ifs with h1 h2
    · exact ih
    · exact ih
    · intro hmem
      rcases List.mem_cons.mp hmem with rfl | hmem
      · exact h1 hp
      · exact ih hmem

/-- A host whose probe is truthy (and whose configuration check passes, or
verbose mode is on) receives a job from the backup loop, whatever happens
to the other hosts of the batch. -/
theorem backup_loop_mem (probe : String → Bool) (confOk : String → Bool)
    (verbose : Bool) (h : String) (hp : probe h = true)
    (hc : verbose = true ∨ confOk h = true) :
    ∀ hosts, h ∈ hosts → h ∈ backup_loop_hosts_with_jobs probe confOk verbose hosts := by
  intro hosts hmem
  induction hosts with
  | nil => simp at hmem
  | cons x t ih =>
    rcases List.mem_cons.mp hmem with rfl | hmem'
    · simp only [backup_loop_hosts_with_jobs]
      split_ifs with h1 h2
      · rw [hp] at h1; cases h1
      · rcases hc with hv | hco
        · exact absurd hv (by simpa using h2.1)
        · exact absurd hco (by simp [h2.2])
      · exact List.mem_cons_self _ _
    · simp only [backup_loop_hosts_with_jobs]
      split_ifs with h1 h2
      · exact ih hmem'
      · exact ih hmem'
      · exact List.mem_cons_of_mem _ (ih hmem')

theorem mem_mkdirIfAbsent_self (dirs : List String) (d : String) :
    d ∈ mkdirIfAbsent dirs d := by
  unfold mkdirIfAbsent
  split_ifs with h
  · exact h
  · simp

theorem mem_mkdirIfAbsent_of_mem (dirs : List String) (d x : String) (hx : x ∈ dirs) :
    x ∈ mkdirIfAbsent dirs d := by
  unfold mkdirIfAbsent
  split_ifs <;> simp [hx]

theorem mkdirIfAbsent_of_mem (dirs : List String) (d : String) (h : d ∈ dirs) :
    mkdirIfAbsent dirs d = dirs := by
  unfold mkdirIfAbsent
  simp [h]


/-- When every record of the host carries both markers, `get_last_backup`
finds nothing. -/
theorem get_last_backup_none (cfg : Catalog) (host : String)
    (hall : ∀ p ∈ cfg, p.2.name = host → (p.2.cleaned = true ∧ p.2.archived = true)) :
    get_last_backup cfg host = none := by
  have hfil : cfg.filter (lb_eligible host) = [] := by
    rw [List.filter_eq_nil_iff]
    intro p hp
    by_cases hn : p.2.name = host
    · obtain ⟨h1, h2⟩ := hall p hp hn
      simp [lb_eligible, h1, h2]
    · simp [lb_eligible, hn]
  unfold get_last_backup
  rw [if_pos]
  rw [lb_dates, hfil]
  rfl

/-- When the host has at least one record lacking a marker,
`get_last_backup` returns the path/os/id of a record of the host whose
timestamp bounds every such record's timestamp from above. -/
theorem get_last_backup_some (cfg : Catalog) (host : String) (q : String × Record)
    (hq : q ∈ cfg) (hqn : q.2.name = host)
    (hqe : q.2.cleaned = false ∨ q.2.archived = false) :
    ∃ p ∈ cfg, p.2.name = host ∧
      get_last_backup cfg host = some (p.2.path, p.2.os, p.1) ∧
      ∀ p2 ∈ cfg, p2.2.name = host → (p2.2.cleaned = false ∨ p2.2.archived = false) →
        p2.2.timestamp ≤ p.2.timestamp := by
  have hqp : lb_eligible host q = true := by
    rcases hqe with h | h <;> simp [lb_eligible, hqn, h]
  have hdne : lb_dates cfg host ≠ [] := by
    intro h
    rw [lb_dates, List.map_eq_nil_iff] at h
    exact absurd hqp (by simpa using List.filter_eq_nil_iff.mp h q hq)
  obtain ⟨pe, hpe_mem, hpe_ts⟩ := List.mem_map.mp (listMax_mem _ hdne)
  obtain ⟨hpe_cfg, hpe_el⟩ := List.mem_filter.mp hpe_mem
  have hpe_name : pe.2.name = host := by
    have := hpe_el
    simp [lb_eligible] at this
    exact this.1
  have hfind : (cfg.find? (fun p =>
      p.2.name == host && p.2.timestamp == listMax (lb_dates cfg host))).isSome := by
    rw [List.find?_isSome]
    exact ⟨pe, hpe_cfg, by simp [hpe_name, hpe_ts, lb_dates]⟩
  obtain ⟨pf, hpf⟩ := Option.isSome_iff_exists.mp hfind
  have hpf_pred := List.find?_some hpf
  have hpf_mem := List.mem_of_find?_eq_some hpf
  simp only [Bool.and_eq_true, beq_iff_eq] at hpf_pred
  refine ⟨pf, hpf_mem, hpf_pred.1, ?_, ?_⟩
  · unfold get_last_backup
    rw [if_neg (by simpa [List.isEmpty_iff] using hdne), hpf]
  · intro p2 hp2 hn2 he2
    have hmem2 : p2.2.timestamp ∈ lb_dates cfg host := by
      rw [lb_dates]
      refine List.mem_map.mpr ⟨p2, List.mem_filter.mpr ⟨hp2, ?_⟩, rfl⟩
      rcases he2 with h | h <;> simp [lb_eligible, hn2, h]
    calc p2.2.timestamp ≤ listMax (lb_dates cfg host) := le_listMax _ _ hmem2
      _ = pf.2.timestamp := hpf_pred.2.symm


/-- Writing a record under a fresh id appends a new section. -/
theorem catalog_upsert_fresh (cfg : Catalog) (bid : String) (r : Record)
    (h : cfg.any (fun p => p.1 == bid) = false) :
    catalog_upsert cfg bid r = cfg ++ [(bid, r)] := by
  unfold catalog_upsert
  rw [if_neg]
  simp [h]

/-! ## Claims -/

/-- C1 fails on the code: `count_full` counts every full/incremental record
of the host, cleaned or archived ones included, so with one cleaned and one
live full backup it returns 2, the live record is not protected, and a
retention run with `days = 0` deletes the storage of — and marks cleaned —
the host's only non-cleaned, non-archived full/incremental record.  The
spec's own count (`count_full_spec`) gives 1 on the same catalog. -/
theorem C1_counterexample :
    (∀ p ∈ cfgC1, (p.2.cleaned = false ∧ p.2.archived = false ∧
        (p.2.rtype = "full" ∨ p.2.rtype = "incremental") ∧ p.2.name = "web01") →
      p.1 = "bbbb") ∧
    "bbbb" ∈ (retention_policy "web01" cfgC1 0 none false fsAll 100).2 ∧
    (retention_policy "web01" cfgC1 0 none false fsAll 100).1.find?
        (fun p => p.1 == "bbbb") =
      some ("bbbb", { name := "web01", rtype := "full", os := "unix",
                      path := "/bck/web01/t2", timestamp := 2,
                      cleaned := true, archived := false }) ∧
    count_full cfgC1 "web01" = 2 ∧ count_full_spec cfgC1 "web01" = 1 := by
  decide

/-- C1 (amended): `full_count` is the number of the host's records of type
{full, incremental} counted regardless of their cleaned/archived markers,
and `retention_policy` never deletes the storage of (nor rewrites) a
full/incremental record of a host whose total full/incremental count is at
most 1. -/
theorem C1_sole_record_protection (cfg : Catalog) (host : String) (days : Nat)
    (mc : Option Nat) (dr : Bool) (fs : Fs) (today : Nat) (bid : String) (r : Record)
    (hmem : (bid, r) ∈ cfg) (hnodup : (cfg.map Prod.fst).Nodup)
    (hty : r.rtype = "full" ∨ r.rtype = "incremental")
    (hcount : count_full cfg host ≤ 1) :
    (bid, r) ∈ (retention_policy host cfg days mc dr fs today).1 ∧
    bid ∉ (retention_policy host cfg days mc dr fs today).2 :=
  retentionGo_protected_mem
    { host := host, days := days, today := today, dryRun := dr, fs := fs,
      exempt := exemptList cfg host mc, fullCount := count_full cfg host }
    bid r hty hcount (some (-1)) cfg hmem hnodup

theorem C1_sole_record_protection_witness :
    ("solo", recC1solo) ∈
      (retention_policy "web01" [("solo", recC1solo)] 0 none false fsAll 100).1 ∧
    "solo" ∉ (retention_policy "web01" [("solo", recC1solo)] 0 none false fsAll 100).2 :=
  C1_sole_record_protection [("solo", recC1solo)] "web01" 0 none false fsAll 100
    "solo" recC1solo (by decide) (by decide) (by decide) (by decide)

/-- C2 fails on the code: `retention_policy` never consults the `archived`
marker, so a record already archived (and not cleaned) has its storage
deleted by a retention run and `cleaned=True` written on top of
`archived=True` — the two markers are not mutually exclusive and the
record's path is handled by both engines. -/
theorem C2_counterexample :
    (∀ p ∈ cfgC2, p.2.archived = true ∧ p.2.cleaned = false) ∧
    "xxxx" ∈ (retention_policy "web01" cfgC2 0 none false fsAll 100).2 ∧
    (retention_policy "web01" cfgC2 0 none false fsAll 100).1 =
      [("xxxx", { name := "web01", rtype := "differential", os := "unix",
                  path := "/bck/web01/t3", timestamp := 3, cleaned := true,
                  archived := true })] := by
  decide

/-- C2 (amended): the archive direction of the exclusion does hold —
`archive_policy` checks the `cleaned` marker and never archives (nor
deletes the storage of, nor rewrites) a record marked cleaned; the converse
direction fails because `retention_policy` does not check `archived` (see
the counterexample). -/
theorem C2_cleaned_never_archived (cfg : Catalog) (days : Nat) (dr : Bool) (fs : Fs)
    (de : Bool) (mk : String → Bool) (today : Nat) (bid : String) (r : Record)
    (hmem : (bid, r) ∈ cfg) (hnodup : (cfg.map Prod.fst).Nodup)
    (hcl : r.cleaned = true) :
    (bid, r) ∈ (archive_policy cfg days dr fs de mk today).1 ∧
    bid ∉ (archive_policy cfg days dr fs de mk today).2 :=
  archiveGo_cleaned_mem
    { days := days, today := today, dryRun := dr, fs := fs,
      destExists := de, mkOk := mk }
    cfg bid r hcl (some (-1)) cfg hmem hnodup

theorem C2_cleaned_never_archived_witness :
    ("wwww", recC2w) ∈
      (archive_policy [("wwww", recC2w)] 0 false fsAll true (fun _ => true) 100).1 ∧
    "wwww" ∉ (archive_policy [("wwww", recC2w)] 0 false fsAll true (fun _ => true) 100).2 :=
  C2_cleaned_never_archived [("wwww", recC2w)] 0 false fsAll true (fun _ => true) 100
    "wwww" recC2w (by decide) (by decide) (by decide)


/-- C3 fails on the code: `get_last_backup` keeps a record as soon as it
lacks **one** of the two markers (the source tests
`not has_option("cleaned") or not has_option("archived")`), so a catalog
whose only record is cleaned (but not archived) still yields a baseline:
composition links the new incremental against a cleaned record's path
instead of falling back to a full backup. -/
theorem C3_counterexample :
    (∀ p ∈ cfgC3, ¬(p.2.cleaned = false ∧ p.2.archived = false)) ∧
    compose_incremental cfgC3 "web01" false =
      ("incremental", some "/bck/web01/t1") := by
  decide

/-- C3 (amended): with `start_from` unset, incremental composition excludes
a record only when it carries **both** markers: if every record of the host
is both cleaned and archived (or none exists), it falls back to a full
backup with no baseline; otherwise it records strategy incremental and
takes as baseline the path of a record of the host whose timestamp bounds
from above the timestamp of every record of the host lacking at least one
marker (so never an older record over a more recent eligible one, with
"eligible" weakened to not-both-marked). -/
theorem C3_baseline_selection (cfg : Catalog) (host : String) :
    ((∀ p ∈ cfg, p.2.name = host → (p.2.cleaned = true ∧ p.2.archived = true)) →
      compose_incremental cfg host false = ("full", none)) ∧
    (∀ q ∈ cfg, q.2.name = host → (q.2.cleaned = false ∨ q.2.archived = false) →
      ∃ p ∈ cfg, p.2.name = host ∧
        compose_incremental cfg host false = ("incremental", some p.2.path) ∧
        ∀ p2 ∈ cfg, p2.2.name = host → (p2.2.cleaned = false ∨ p2.2.archived = false) →
          p2.2.timestamp ≤ p.2.timestamp) := by
  constructor
  · intro hall
    unfold compose_incremental
    rw [get_last_backup_none cfg host hall]
  · intro q hq hqn hqe
    obtain ⟨p, hp, hpn, hglb, hbound⟩ := get_last_backup_some cfg host q hq hqn hqe
    refine ⟨p, hp, hpn, ?_, hbound⟩
    unfold compose_incremental
    rw [hglb]
    rfl

/-- A catalog with one live and one older live backup of web01. -/
theorem C3_baseline_selection_witness :
    ∃ p ∈ cfgC1, p.2.name = "web01" ∧
      compose_incremental cfgC1 "web01" false = ("incremental", some p.2.path) ∧
      ∀ p2 ∈ cfgC1, p2.2.name = "web01" →
        (p2.2.cleaned = false ∨ p2.2.archived = false) →
        p2.2.timestamp ≤ p.2.timestamp :=
  (C3_baseline_selection cfgC1 "web01").2
    ("aaaa", { name := "web01", rtype := "full", os := "unix", path := "/bck/web01/t1",
               timestamp := 1, cleaned := true, archived := false })
    (by decide) (by decide) (by decide)


/-- C4: in a backup batch, a job exiting 0 has `end` and `status=0` written
and its command is absent from the returned retry list (commands are
pairwise distinct, as the source builds one command per host); an exit of
23 or 24 is logged as a WARNING while any other non-zero exit is logged as
an ERROR; and every job with a non-zero exit — 23 and 24 included — has
`end` and its real status written and its command in the retry list. -/
theorem C4_scheduler_classification (retention skipErr : Bool) (st et : String)
    (jobs : List Job) (j : Job) (hj : j ∈ jobs)
    (hnodup : (jobs.map Job.command).Nodup) :
    (j.exitCode = 0 →
      (j.id, "end", et) ∈ (run_in_parallel "backup" retention skipErr st et jobs).writes ∧
      (j.id, "status", "0") ∈ (run_in_parallel "backup" retention skipErr st et jobs).writes ∧
      j.command ∉ (run_in_parallel "backup" retention skipErr st et jobs).retries) ∧
    (j.exitCode = 23 ∨ j.exitCode = 24 →
      (j.command, LogLevel.warning) ∈
        (run_in_parallel "backup" retention skipErr st et jobs).logs) ∧
    (j.exitCode ≠ 0 → ¬(j.exitCode = 23 ∨ j.exitCode = 24) →
      (j.command, LogLevel.error) ∈
        (run_in_parallel "backup" retention skipErr st et jobs).logs) ∧
    (j.exitCode ≠ 0 →
      (j.id, "end", et) ∈ (run_in_parallel "backup" retention skipErr st et jobs).writes ∧
      (j.id, "status", toString j.exitCode) ∈
        (run_in_parallel "backup" retention skipErr st et jobs).writes ∧
      j.command ∈ (run_in_parallel "backup" retention skipErr st et jobs).retries) := by
  have hw := schedLoop_writes retention skipErr et jobs j hj
  have hl := schedLoop_logs "backup" retention skipErr et jobs j hj
  refine ⟨?_, ?_, ?_, ?_⟩
  · intro h0
    refine ⟨?_, ?_, ?_⟩
    · simp only [run_in_parallel, SchedOut.append, List.mem_append]
      exact Or.inr hw.1
    · have : toString j.exitCode = "0" := by rw [h0]; rfl
      simp only [run_in_parallel, SchedOut.append, List.mem_append]
      exact Or.inr (this ▸ hw.2)
    · intro hmem
      simp only [run_in_parallel, SchedOut.append, List.nil_append] at hmem
      obtain ⟨j2, hj2, hcmd, hne⟩ :=
        schedLoop_retries_sound "backup" retention skipErr et jobs j.command hmem
      have : j2 = j := List.inj_on_of_nodup_map hnodup hj2 hj hcmd
      exact hne (this ▸ h0)
  · intro h23
    have h0 : ¬ j.exitCode = 0 := by rcases h23 with h | h <;> simp [h]
    rw [if_neg h0, if_pos h23] at hl
    simp only [run_in_parallel, SchedOut.append, List.nil_append]
    exact hl
  · intro h0 h23
    rw [if_neg h0, if_neg h23] at hl
    simp only [run_in_parallel, SchedOut.append, List.nil_append]
    exact hl
  · intro h0
    refine ⟨?_, ?_, ?_⟩
    · simp only [run_in_parallel, SchedOut.append, List.mem_append]
      exact Or.inr hw.1
    · simp only [run_in_parallel, SchedOut.append, List.mem_append]
      exact Or.inr hw.2
    · simp only [run_in_parallel, SchedOut.append, List.nil_append]
      exact schedLoop_retries_complete "backup" retention skipErr et jobs j hj h0

/-- The partial-transfer job of the concrete batch is logged as a warning
and retried with its real status recorded. -/
theorem C4_scheduler_classification_witness :
    ("rsync b", LogLevel.warning) ∈
      (run_in_parallel "backup" false false "s" "e" jobsC4).logs ∧
    ("i2", "status", "23") ∈ (run_in_parallel "backup" false false "s" "e" jobsC4).writes ∧
    "rsync b" ∈ (run_in_parallel "backup" false false "s" "e" jobsC4).retries ∧
    "rsync a" ∉ (run_in_parallel "backup" false false "s" "e" jobsC4).retries :=
  have h := C4_scheduler_classification false false "s" "e" jobsC4
    { command := "rsync b", id := "i2", hostname := "h2", exitCode := 23 }
    (by decide) (by decide)
  have ha := C4_scheduler_classification false false "s" "e" jobsC4
    { command := "rsync a", id := "i1", hostname := "h1", exitCode := 0 }
    (by decide) (by decide)
  ⟨h.2.1 (Or.inl rfl), (h.2.2.2 (by decide)).2.1, (h.2.2.2 (by decide)).2.2,
   (ha.1 rfl).2.2⟩


/-- C5 fails on the code: `delete_host` never consults the dry-run flag (its
first parameter below), so with dry-run set it still deletes every backup
folder of the host, removes the host root tree, and rewrites the catalog. -/
theorem C5_counterexample :
    (delete_host true true cfgC5 fsAll 10 "/bck/web01" "web01").2 =
      ["/bck/web01/t1", "/bck/web01"] ∧
    (delete_host true true cfgC5 fsAll 10 "/bck/web01" "web01").1 = [] ∧
    cfgC5 ≠ [] := by
  decide

/-- C5 (amended): under dry-run, `write_catalog` leaves the catalog file
unchanged and a retention or archive run neither rewrites the catalog nor
deletes any storage; but catalog-maintenance commands — `delete_host` in
particular — ignore the flag and still delete storage and rewrite the
catalog (see the counterexample). -/
theorem C5_dry_run_no_mutation :
    (∀ (cfg : IniFile) (sect key value : String),
      write_catalog true cfg sect key value = cfg) ∧
    (∀ (host : String) (cfg : Catalog) (days : Nat) (mc : Option Nat) (fs : Fs)
      (today : Nat), retention_policy host cfg days mc true fs today = (cfg, [])) ∧
    (∀ (cfg : Catalog) (days : Nat) (fs : Fs) (de : Bool) (mk : String → Bool)
      (today : Nat), archive_policy cfg days true fs de mk today = (cfg, [])) := by
  refine ⟨fun cfg sect key value => rfl,
          fun host cfg days mc fs today => ?_,
          fun cfg days fs de mk today => ?_⟩
  · exact retentionGo_dryRun _ rfl _ cfg
  · exact archiveGo_dryRun _ rfl cfg _ cfg

/-- C6: evaluating the restore mapper at the failing input.  Backing up
category `user` from unix produces the top-level snapshot folder "home";
planning its restore onto windows must, per the claim, resolve to windows'
user root `/cygdrive/c/Users`, but the source's loop reassigns the result
on every taxonomy key without breaking, so only the last key ("log") is
effective and the destination degrades to a generated
`restore_<timestamp>` folder under the windows system root. -/
theorem C6_failing_input_eval :
    compose_restore_src_dst "unix" "windows" "home" none "2025_10_12__10_00" =
      some ("home", "/cygdrive/c/restore_2025_10_12__10_00") ∧
    dictGet (map_dict_folder "unix") "user" = "/home" ∧
    dictGet (map_dict_folder "windows") "user" = "/cygdrive/c/Users" ∧
    "/cygdrive/c/restore_2025_10_12__10_00" ≠ "/cygdrive/c/Users" := by
  decide

/-- C7 fails on the code: on an authentication failure (the host is
reachable but the key is not deployed) `check_ssh` prints a warning and
returns True, not False. -/
theorem C7_counterexample :
    check_ssh ConnResult.authFail = true ∧ check_ssh ConnResult.authFail ≠ false := by
  decide

/-- C7 (amended): the probe returns False exactly when opening the
connection fails with a non-authentication error (an authentication
failure warns and returns True); on a False result the backup loop
short-circuits that host — it gets no job — while any host whose probe is
True (and whose configuration check passes, or verbose mode is on) still
gets its job, whatever happened to the other hosts of the batch. -/
theorem C7_probe_and_short_circuit (probe : String → ConnResult)
    (confOk : String → Bool) (verbose : Bool) (hosts : List String) (h : String)
    (hmem : h ∈ hosts) :
    (check_ssh (probe h) = false ↔ probe h = ConnResult.connFail) ∧
    (probe h = ConnResult.connFail →
      h ∉ backup_loop_hosts_with_jobs (fun x => check_ssh (probe x)) confOk verbose hosts) ∧
    (check_ssh (probe h) = true → (verbose = true ∨ confOk h = true) →
      h ∈ backup_loop_hosts_with_jobs (fun x => check_ssh (probe x)) confOk verbose hosts) := by
  refine ⟨?_, ?_, ?_⟩
  · cases hcase : probe h <;> simp [check_ssh]
  · intro hcf
    exact backup_loop_not_mem _ confOk verbose h (by simp [hcf, check_ssh]) hosts
  · intro hp hc
    exact backup_loop_mem _ confOk verbose h hp hc hosts hmem

/-- In a two-host batch where web01's connection fails, web01 gets no job
and web02 still gets one. -/
theorem C7_probe_and_short_circuit_witness :
    "web01" ∉ backup_loop_hosts_with_jobs (fun x => check_ssh (probeC7 x))
      (fun _ => true) false ["web01", "web02"] ∧
    "web02" ∈ backup_loop_hosts_with_jobs (fun x => check_ssh (probeC7 x))
      (fun _ => true) false ["web01", "web02"] :=
  ⟨(C7_probe_and_short_circuit probeC7 (fun _ => true) false ["web01", "web02"]
      "web01" (by decide)).2.1 (by decide),
   (C7_probe_and_short_circuit probeC7 (fun _ => true) false ["web01", "web02"]
      "web02" (by decide)).2.2 (by decide) (Or.inr rfl)⟩

/-- C8 fails on the code: for an unrecognized OS family `map_dict_folder`
silently returns the empty mapping — no `UnknownOSFamily` failure exists in
the source (the function is total and raises nothing), where the spec's
contract (`folders_spec`, modelled from its words) demands an error. -/
theorem C8_counterexample :
    map_dict_folder "plan9" = [] ∧
    folders_spec "plan9" = Except.error "UnknownOSFamily" :=
  ⟨rfl, rfl⟩

/-- C8 (amended): the mapper is a pure function returning exactly the fixed
documented tables for unix, windows and macos, and the **empty** mapping —
not a failure — for every other OS family value. -/
theorem C8_taxonomy_tables (s : String)
    (hs : s ≠ "unix" ∧ s ≠ "windows" ∧ s ≠ "macos") :
    map_dict_folder "unix" =
      [("user", "/home"), ("config", "/etc"), ("application", "/usr"),
       ("system", "/"), ("log", "/var/log")] ∧
    map_dict_folder "windows" =
      [("user", "/cygdrive/c/Users"), ("config", "/cygdrive/c/ProgramData"),
       ("application", "/cygdrive/c/Program Files"), ("system", "/cygdrive/c"),
       ("log", "/cygdrive/c/Windows/System32/winevt")] ∧
    map_dict_folder "macos" =
      [("user", "/Users"), ("config", "/private/etc"),
       ("application", "/Applications"), ("system", "/"),
       ("log", "/private/var/log")] ∧
    map_dict_folder s = [] := by
  refine ⟨rfl, rfl, rfl, ?_⟩
  unfold map_dict_folder
  rw [if_neg hs.1, if_neg hs.2.1, if_neg hs.2.2]

theorem C8_taxonomy_tables_witness : map_dict_folder "beos" = [] :=
  (C8_taxonomy_tables "beos" (by decide)).2.2.2

/-- C9 fails on the code: each backup run generates a fresh backup id and
writes a fresh catalog section, so running mirror mode twice yields **two**
catalog records — though both carry the same fixed
`<root>/<host>/mirror_backup` path and only one destination folder ever
exists. -/
theorem C9_counterexample :
    mirrorRun2.1.length = 2 ∧ mirrorRun2.1.length ≠ 1 ∧
    (∀ p ∈ mirrorRun2.1, p.2.path = "/bck/web01/mirror_backup") ∧
    mirrorRun2.2 = mirrorRun1.2 := by
  decide

/-- C9 (amended): two mirror runs with fresh ids append two records to the
catalog, both recording the same fixed reused destination
`<root>/<host>/mirror_backup`, and the second run creates no new folder. -/
theorem C9_mirror_two_records (cfg : Catalog) (dirs : List String)
    (b1 b2 host osn root : String) (t1 t2 : Nat) (f1 f2 : String)
    (h1 : cfg.any (fun p => p.1 == b1) = false)
    (h2 : cfg.any (fun p => p.1 == b2) = false)
    (hne : b1 ≠ b2) :
    ∃ r1 r2 : Record,
      (backup_run (backup_run cfg dirs b1 host osn "mirror" root t1 f1).1
          (backup_run cfg dirs b1 host osn "mirror" root t1 f1).2
          b2 host osn "mirror" root t2 f2).1 = cfg ++ [(b1, r1), (b2, r2)] ∧
      r1.path = joinPath (joinPath root host) "mirror_backup" ∧
      r2.path = r1.path ∧
      (backup_run (backup_run cfg dirs b1 host osn "mirror" root t1 f1).1
          (backup_run cfg dirs b1 host osn "mirror" root t1 f1).2
          b2 host osn "mirror" root t2 f2).2 =
        (backup_run cfg dirs b1 host osn "mirror" root t1 f1).2 := by
  have e1 : backup_run cfg dirs b1 host osn "mirror" root t1 f1 =
      (catalog_upsert cfg b1
        ⟨host, "mirror", osn, joinPath (joinPath root host) "mirror_backup", t1,
         false, false⟩,
       mkdirIfAbsent (mkdirIfAbsent dirs (joinPath root host))
         (joinPath (joinPath root host) "mirror_backup")) := rfl
  have hc1 : (backup_run cfg dirs b1 host osn "mirror" root t1 f1).1 =
      cfg ++ [(b1, ⟨host, "mirror", osn,
        joinPath (joinPath root host) "mirror_backup", t1, false, false⟩)] := by
    rw [e1]
    exact catalog_upsert_fresh cfg b1 _ h1
  have h2b : ((cfg ++ [(b1, (⟨host, "mirror", osn,
      joinPath (joinPath root host) "mirror_backup", t1, false, false⟩ : Record))]).any
        (fun p => p.1 == b2)) = false := by
    rw [List.any_append]
    simp [h2, beq_eq_false_iff_ne, hne]
  refine ⟨⟨host, "mirror", osn, joinPath (joinPath root host) "mirror_backup", t1,
           false, false⟩,
          ⟨host, "mirror", osn, joinPath (joinPath root host) "mirror_backup", t2,
           false, false⟩, ?_, rfl, rfl, ?_⟩
  · have e2 : (backup_run (backup_run cfg dirs b1 host osn "mirror" root t1 f1).1
        (backup_run cfg dirs b1 host osn "mirror" root t1 f1).2
        b2 host osn "mirror" root t2 f2).1 =
        catalog_upsert (backup_run cfg dirs b1 host osn "mirror" root t1 f1).1 b2
          ⟨host, "mirror", osn, joinPath (joinPath root host) "mirror_backup", t2,
           false, false⟩ := rfl
    rw [e2, hc1, catalog_upsert_fresh _ b2 _ h2b, List.append_assoc]
    rfl
  · have e3 : (backup_run (backup_run cfg dirs b1 host osn "mirror" root t1 f1).1
        (backup_run cfg dirs b1 host osn "mirror" root t1 f1).2
        b2 host osn "mirror" root t2 f2).2 =
        mkdirIfAbsent
          (mkdirIfAbsent (backup_run cfg dirs b1 host osn "mirror" root t1 f1).2
            (joinPath root host))
          (joinPath (joinPath root host) "mirror_backup") := rfl
    have hl : joinPath root host ∈
        (backup_run cfg dirs b1 host osn "mirror" root t1 f1).2 := by
      rw [e1]
      exact mem_mkdirIfAbsent_of_mem _ _ _ (mem_mkdirIfAbsent_self dirs _)
    have hd : joinPath (joinPath root host) "mirror_backup" ∈
        (backup_run cfg dirs b1 host osn "mirror" root t1 f1).2 := by
      rw [e1]
      exact mem_mkdirIfAbsent_self _ _
    rw [e3, mkdirIfAbsent_of_mem _ _ hl, mkdirIfAbsent_of_mem _ _ hd]

theorem C9_mirror_two_records_witness :
    ∃ r1 r2 : Record,
      (backup_run (backup_run [] [] "id-1" "web01" "unix" "mirror" "/bck" 1 "t1").1
          (backup_run [] [] "id-1" "web01" "unix" "mirror" "/bck" 1 "t1").2
          "id-2" "web01" "unix" "mirror" "/bck" 2 "t2").1 = [] ++ [("id-1", r1), ("id-2", r2)] ∧
      r1.path = joinPath (joinPath "/bck" "web01") "mirror_backup" ∧
      r2.path = r1.path ∧
      (backup_run (backup_run [] [] "id-1" "web01" "unix" "mirror" "/bck" 1 "t1").1
          (backup_run [] [] "id-1" "web01" "unix" "mirror" "/bck" 1 "t1").2
          "id-2" "web01" "unix" "mirror" "/bck" 2 "t2").2 =
        (backup_run [] [] "id-1" "web01" "unix" "mirror" "/bck" 1 "t1").2 :=
  C9_mirror_two_records [] [] "id-1" "id-2" "web01" "unix" "/bck" 1 2 "t1" "t2"
    (by decide) (by decide) (by decide)

/-- C10: the source defines `check_ssh(ip, user, port=22)` — at most three
positional parameters — while both the backup and restore sessions of
`main` call it with four positional arguments, so the call raises
`TypeError` instead of returning a boolean, `main` aborts, and no job of
the invocation is ever dispatched to `run_in_parallel`. -/
theorem C10_check_ssh_arity (probe : String → ConnResult) (confOk : String → Bool)
    (verbose : Bool) (hosts : List String) (conn : ConnResult) (hne : hosts ≠ []) :
    py_call_ok check_ssh_required_count check_ssh_param_count backup_ssh_call_argc = false ∧
    call_check_ssh conn backup_ssh_call_argc = PyOutcome.typeError ∧
    call_check_ssh conn restore_ssh_call_argc = PyOutcome.typeError ∧
    backup_main_jobs probe confOk verbose hosts = PyOutcome.typeError ∧
    dispatched (backup_main_jobs probe confOk verbose hosts) = [] := by
  cases hosts with
  | nil => exact absurd rfl hne
  | cons h t => exact ⟨rfl, rfl, rfl, rfl, rfl⟩

theorem C10_check_ssh_arity_witness :
    backup_main_jobs (fun _ => ConnResult.ok) (fun _ => true) false ["web01"] =
      PyOutcome.typeError ∧
    dispatched (backup_main_jobs (fun _ => ConnResult.ok) (fun _ => true) false
      ["web01"]) = [] :=
  ⟨(C10_check_ssh_arity (fun _ => ConnResult.ok) (fun _ => true) false ["web01"]
      ConnResult.ok (by decide)).2.2.2.1,
   (C10_check_ssh_arity (fun _ => ConnResult.ok) (fun _ => true) false ["web01"]
      ConnResult.ok (by decide)).2.2.2.2⟩

end ButterflyBackup
